import Mathlib

/-!
# Verification of the arena mini-game simulation core

Shallow embedding of the per-frame simulation step of the two-player arena
game (source: `src/src/App.jsx`, with near-duplicate variants in the unnamed
source parts).  JavaScript numbers are modelled as exact rationals (`ℚ`);
`Math.hypot` is modelled through an exact integer square root on the
numerator/denominator, which agrees with the true square root exactly on
rationals that are squares of rationals (all concrete inputs used below are
chosen in that fragment).  Rendering, input widgets and the React scaffolding
are outside the simulation core and are not modelled; the per-frame `loop`
body's simulation branch is embedded as `advance`, and `startGame` as the
round initialiser.
-/

namespace Game

/-! ## Numeric constants (App.jsx lines 13-35) -/

def WORLD_W : ℚ := 960
def WORLD_H : ℚ := 540
def PLAYER_R : ℚ := 16
def STAR_R : ℚ := 10
def OBSTACLE_R : ℚ := 18
def POWER_R : ℚ := 14
def BASE_SPEED : ℚ := 13/5      -- 2.6
def BOOST_SPEED : ℚ := 21/5     -- 4.2
def DASH_BOOST : ℚ := 7         -- 7.0
def BOOST_DURATION : ℚ := 5000
def FRICTION : ℚ := 22/25       -- 0.88
def MAX_STARS : ℕ := 6
def STAR_RESPAWN_MS : ℚ := 1000
def OBSTACLE_COUNT : ℕ := 5
def POWER_CHANCE_MS : ℚ := 5000
def ROUND_TIME : ℤ := 75

/-! ## Exact integer square root (model of the square root inside Math.hypot)

`sqrtGo` performs a binary search on the bits of the candidate root;
`bitsGo` computes a bit length with structural fuel.  `isqrt n` is the
integer square root `⌊√n⌋`, and `ratSqrt` extends it to rationals; on a
rational that is the square of a nonnegative rational it is exact
(`ratSqrt_mul_self`). -/

def bitsGo : ℕ → ℕ → ℕ
  | 0, _ => 0
  | f + 1, n => if n = 0 then 0 else bitsGo f (n / 2) + 1

def sqrtGo (n : ℕ) : ℕ → ℕ → ℕ
  | acc, 0 => acc
  | acc, f + 1 =>
      let c := acc + 2 ^ f
      if c * c ≤ n then sqrtGo n c f else sqrtGo n acc f

def isqrt (n : ℕ) : ℕ := sqrtGo n 0 (bitsGo n n)

theorem bitsGo_lt : ∀ (f n : ℕ), n ≤ f → n < 2 ^ bitsGo f n := by
  intro f
  induction f with
  | zero => intro n hn; interval_cases n; simp [bitsGo]
  | succ f ih =>
      intro n hn
      by_cases h0 : n = 0
      · simp [bitsGo, h0]
      · have hdiv : n / 2 ≤ f := by omega
        have := ih (n / 2) hdiv
        simp only [bitsGo, h0, if_false]
        have h2 : n < 2 * 2 ^ bitsGo f (n / 2) := by omega
        calc n < 2 * 2 ^ bitsGo f (n / 2) := h2
          _ = 2 ^ (bitsGo f (n / 2) + 1) := by ring

theorem sqrtGo_correct (n : ℕ) : ∀ (f acc : ℕ),
    acc * acc ≤ n → n < (acc + 2 ^ f) * (acc + 2 ^ f) →
    (sqrtGo n acc f) * (sqrtGo n acc f) ≤ n ∧
      n < (sqrtGo n acc f + 1) * (sqrtGo n acc f + 1) := by
  intro f
  induction f with
  | zero => intro acc h1 h2; simpa [sqrtGo] using ⟨h1, by simpa using h2⟩
  | succ f ih =>
      intro acc h1 h2
      simp only [sqrtGo]
      by_cases hc : (acc + 2 ^ f) * (acc + 2 ^ f) ≤ n
      · simp only [hc, if_true]
        refine ih (acc + 2 ^ f) hc ?_
        have : acc + 2 ^ f + 2 ^ f = acc + 2 ^ (f + 1) := by ring
        rw [this]; exact h2
      · simp only [hc, if_false]
        exact ih acc h1 (by omega)

theorem isqrt_spec (n : ℕ) : isqrt n * isqrt n ≤ n ∧ n < (isqrt n + 1) * (isqrt n + 1) := by
  have hb : n < 2 ^ bitsGo n n := bitsGo_lt n n le_rfl
  have h1 : (1 : ℕ) ≤ 2 ^ bitsGo n n := Nat.one_le_two_pow
  have hsq : n < (0 + 2 ^ bitsGo n n) * (0 + 2 ^ bitsGo n n) := by
    have h2 : 2 ^ bitsGo n n ≤ 2 ^ bitsGo n n * 2 ^ bitsGo n n :=
      Nat.le_mul_of_pos_left _ (by omega)
    simpa using lt_of_lt_of_le hb h2
  exact sqrtGo_correct n (bitsGo n n) 0 (by omega) hsq

theorem isqrt_mul_self (d : ℕ) : isqrt (d * d) = d := by
  obtain ⟨h1, h2⟩ := isqrt_spec (d * d)
  set r := isqrt (d * d) with hr
  have hrd : r ≤ d := by
    by_contra h
    push_neg at h
    have : (d + 1) * (d + 1) ≤ r * r := Nat.mul_le_mul h h
    nlinarith
  have hdr : d ≤ r := by
    by_contra h
    push_neg at h
    have : (r + 1) * (r + 1) ≤ d * d := Nat.mul_le_mul h h
    omega
  omega

def ratSqrt (q : ℚ) : ℚ := (isqrt q.num.toNat : ℚ) / (isqrt q.den : ℚ)

theorem ratSqrt_mul_self (d : ℚ) (hd : 0 ≤ d) : ratSqrt (d * d) = d := by
  have hnum : (d * d).num = d.num * d.num := Rat.mul_self_num d
  have hden : (d * d).den = d.den * d.den := Rat.mul_self_den d
  have h0 : 0 ≤ d.num := Rat.num_nonneg.mpr hd
  have hn : ((d.num.toNat : ℤ)) = d.num := Int.toNat_of_nonneg h0
  have hnum' : (d * d).num.toNat = d.num.toNat * d.num.toNat := by
    rw [hnum, ← hn]
    exact_mod_cast Int.toNat_natCast _
  rw [ratSqrt, hnum', hden, isqrt_mul_self, isqrt_mul_self]
  have : ((d.num.toNat : ℚ)) = ((d.num : ℚ)) := by exact_mod_cast hn
  rw [this, Rat.num_div_den]

/-- Model of `Math.hypot dx dy`: exact whenever the true distance is rational. -/
def hypot (dx dy : ℚ) : ℚ := ratSqrt (dx * dx + dy * dy)

theorem hypot_exact (dx dy d : ℚ) (h0 : 0 ≤ d) (h : d * d = dx * dx + dy * dy) :
    hypot dx dy = d := by
  rw [hypot, ← h, ratSqrt_mul_self d h0]

theorem hypot_zero : hypot 0 0 = 0 := hypot_exact 0 0 0 le_rfl (by ring)

/-! ## JavaScript truthiness helpers

`q || 0` and `q || 1` on a JS number yield the alternative exactly when the
number is `0` (we do not model `NaN`/`undefined`; all fields are initialised
numbers in the source). -/

def jsOr0 (q : ℚ) : ℚ := if q = 0 then 0 else q
def jsOr1 (q : ℚ) : ℚ := if q = 0 then 1 else q

@[simp] theorem jsOr0_eq (q : ℚ) : jsOr0 q = q := by
  unfold jsOr0; split <;> simp_all

/-! ## Data model (App.jsx: `initPlayer`, `controls`, `sRef`) -/

structure Player where
  x : ℚ
  y : ℚ
  vx : ℚ
  vy : ℚ
  score : ℕ
  boostUntil : ℚ
  hitTintUntil : ℚ
  deriving Repr, DecidableEq

structure Ctrl where
  vx : ℚ
  vy : ℚ
  dash : Bool
  lastDash : ℚ
  dashUntil : ℚ
  deriving Repr, DecidableEq

structure Obstacle where
  x : ℚ
  y : ℚ
  r : ℚ
  vx : ℚ
  vy : ℚ
  deriving Repr, DecidableEq

structure Star where
  x : ℚ
  y : ℚ
  deriving Repr, DecidableEq

structure Power where
  type : String
  x : ℚ
  y : ℚ
  deriving Repr, DecidableEq

/-- The three terminal outcomes (the source uses the strings
`Pulkit`, `Harshil`, `Draw`). -/
inductive Winner where
  | pulkit
  | harshil
  | draw
  deriving Repr, DecidableEq

structure Players where
  pulkit : Player
  harshil : Player
  deriving Repr, DecidableEq

/-- The whole mutable state read and written by one frame of the game loop:
the simulation state `sRef.current` together with the React state
`running`, `winner`, `countdown`. -/
structure GState where
  players : Players
  stars : List Star
  obstacles : List Obstacle
  powers : List Power
  lastStarSpawn : ℚ
  lastPowerTry : ℚ
  startedAt : ℚ
  running : Bool
  winner : Option Winner
  countdown : ℤ
  deriving Repr, DecidableEq

/-- Per-tick inputs that the loop reads from outside the simulation state:
the two control structures, the clock, and the values that the calls to
`Math.random()` would produce (the freshly generated star / power, and the
boolean outcome of `Math.random() < POWER_PROBABILITY`). -/
structure Tick where
  cp : Ctrl
  ch : Ctrl
  now : ℚ
  rStar : Star
  rollP : Bool
  rPow : Power
  deriving Repr, DecidableEq

/-! ## Game logic helpers (App.jsx lines 375-460) -/

def initPlayer (x y : ℚ) : Player :=
  { x := x, y := y, vx := 0, vy := 0, score := 0, boostUntil := 0, hitTintUntil := 0 }

/-- `updatePlayer(p, ctrl, now)` (App.jsx lines 378-392).  The returned pair is
the mutated player and the mutated control object (the source mutates both in
place; the `ctrl.dash = false` write-back is guarded by
`dashActive && now >= ctrl.dashUntil`). -/
def updatePlayer (p : Player) (ctrl : Ctrl) (now : ℚ) : Player × Ctrl :=
  let dashActive := now < jsOr0 ctrl.dashUntil
  let ctrl' := if dashActive ∧ ctrl.dashUntil ≤ now then { ctrl with dash := false } else ctrl
  let boosted := now < jsOr0 p.boostUntil
  let speed := if dashActive then DASH_BOOST else if boosted then BOOST_SPEED else BASE_SPEED
  let vx := (p.vx + ctrl.vx * speed * (11/20)) * FRICTION
  let vy := (p.vy + ctrl.vy * speed * (11/20)) * FRICTION
  let x := p.x + vx
  let y := p.y + vy
  let pad := 8 + PLAYER_R
  ({ p with vx := vx, vy := vy,
            x := max pad (min (WORLD_W - pad) x),
            y := max pad (min (WORLD_H - pad) y) }, ctrl')

/-- One player-versus-obstacle resolution (loop body of
`collideWorldAndObstacles`, App.jsx lines 394-409). -/
def collideObs (now : ℚ) (p : Player) (o : Obstacle) : Player :=
  let dx := p.x - o.x
  let dy := p.y - o.y
  let dist := hypot dx dy
  let minDist := PLAYER_R + o.r
  if dist < minDist then
    let nx := dx / jsOr1 dist
    let ny := dy / jsOr1 dist
    let pen := minDist - dist + 1/100
    { p with x := p.x + nx * pen, y := p.y + ny * pen,
             vx := p.vx + nx * (6/5), vy := p.vy + ny * (6/5),
             hitTintUntil := now + 150 }
  else p

def collideWorldAndObstacles (p : Player) (obstacles : List Obstacle) (now : ℚ) : Player :=
  obstacles.foldl (collideObs now) p

/-- `resolvePlayersBounce(a, b)` (App.jsx lines 411-429). -/
def resolvePlayersBounce (a b : Player) : Player × Player :=
  let dx := b.x - a.x
  let dy := b.y - a.y
  let dist := hypot dx dy
  let minDist := PLAYER_R * 2
  if dist < minDist ∧ 0 < dist then
    let nx := dx / dist
    let ny := dy / dist
    let pen := minDist - dist + 1/100
    ({ a with x := a.x - nx * (pen/2), y := a.y - ny * (pen/2),
              vx := a.vx - nx * (4/5), vy := a.vy - ny * (4/5) },
     { b with x := b.x + nx * (pen/2), y := b.y + ny * (pen/2),
              vx := b.vx + nx * (4/5), vy := b.vy + ny * (4/5) })
  else (a, b)

/-- The collision test of `collectItems` (squared-distance form, as in the
source: `dx*dx + dy*dy <= (PLAYER_R + r*0.7)**2`). -/
def starHit (player : Player) (s : Star) (r : ℚ) : Bool :=
  decide ((player.x - s.x) * (player.x - s.x) + (player.y - s.y) * (player.y - s.y)
    ≤ (PLAYER_R + r * (7/10)) * (PLAYER_R + r * (7/10)))

/-- `collectItems(player, stars, r)` (App.jsx lines 430-440).  The JS loop
walks the array from the last index down to `0`, splicing hits out and
incrementing the score; the recursion below processes the tail (higher
indices) first, exactly mirroring that order. -/
def collectItems (player : Player) (stars : List Star) (r : ℚ) : Player × List Star :=
  match stars with
  | [] => (player, [])
  | s :: rest =>
      let pr := collectItems player rest r
      if starHit pr.1 s r then
        ({ pr.1 with score := pr.1.score + 1 }, pr.2)
      else
        (pr.1, s :: pr.2)

/-- The collision test of `takePowerups`. -/
def powHit (player : Player) (pw : Power) : Bool :=
  decide ((player.x - pw.x) * (player.x - pw.x) + (player.y - pw.y) * (player.y - pw.y)
    ≤ (PLAYER_R + POWER_R * (7/10)) * (PLAYER_R + POWER_R * (7/10)))

/-- `takePowerups(player, powers)` (App.jsx lines 441-452); `now` models the
`performance.now()` call at its head.  Hits are spliced out regardless of
their type; only a hit whose `type` is `boost` writes `boostUntil`. -/
def takePowerups (player : Player) (powers : List Power) (now : ℚ) : Player × List Power :=
  match powers with
  | [] => (player, [])
  | pw :: rest =>
      let pr := takePowerups player rest now
      if powHit pr.1 pw then
        (if pw.type = ("boost") then { pr.1 with boostUntil := now + BOOST_DURATION } else pr.1,
         pr.2)
      else
        (pr.1, pw :: pr.2)

/-- One obstacle motion-and-bounce step (App.jsx lines 177-182): translate,
then negate a velocity component when the updated position has crossed the
corresponding wall band.  The position itself is never clamped. -/
def stepObstacle (o : Obstacle) : Obstacle :=
  let x := o.x + o.vx
  let y := o.y + o.vy
  { o with x := x, y := y,
           vx := if x < o.r ∨ WORLD_W - o.r < x then -o.vx else o.vx,
           vy := if y < o.r ∨ WORLD_H - o.r < y then -o.vy else o.vy }

/-- Winner computation at timer expiry (App.jsx lines 155-158). -/
def declWinner (ps : Players) : Winner :=
  if ps.harshil.score < ps.pulkit.score then Winner.pulkit
  else if ps.pulkit.score < ps.harshil.score then Winner.harshil
  else Winner.draw

/-- `remain = Math.max(0, ROUND_TIME - Math.floor(elapsed))` with
`elapsed = (now - startedAt) / 1000` (App.jsx lines 150-151). -/
def remainOf (s : GState) (now : ℚ) : ℤ :=
  max 0 (ROUND_TIME - Int.floor ((now - s.startedAt) / 1000))

/-- One frame of the game loop's simulation branch (App.jsx lines 148-193):
timer/winner update, star and power-up spawning, obstacle motion, player
integration, obstacle collision, player-versus-player collision, star
collection and power-up pickup, in exactly the source's order.  When
`running` is false the branch is skipped and the state is untouched.
Returns the new state together with the (possibly) mutated control
structures.  (The purely visual parallax starfield update is rendering
state, not simulation state, and is not modelled.) -/
def advance (s : GState) (t : Tick) : GState × Ctrl × Ctrl :=
  if s.running then
    let remain := remainOf s t.now
    let running' := if remain ≤ 0 then false else s.running
    let winner' := if remain ≤ 0 then some (declWinner s.players) else s.winner
    let spawnStar := STAR_RESPAWN_MS < t.now - s.lastStarSpawn ∧ s.stars.length < MAX_STARS
    let stars1 := if spawnStar then s.stars ++ [t.rStar] else s.stars
    let lastStar' := if spawnStar then t.now else s.lastStarSpawn
    let tryPow := POWER_CHANCE_MS < t.now - s.lastPowerTry
    let powers1 := if tryPow ∧ (t.rollP ∧ s.powers.length < 2) then s.powers ++ [t.rPow]
                   else s.powers
    let lastPow' := if tryPow then t.now else s.lastPowerTry
    let obstacles1 := s.obstacles.map stepObstacle
    let up := updatePlayer s.players.pulkit t.cp t.now
    let uh := updatePlayer s.players.harshil t.ch t.now
    let pu2 := collideWorldAndObstacles up.1 obstacles1 t.now
    let ha2 := collideWorldAndObstacles uh.1 obstacles1 t.now
    let rb := resolvePlayersBounce pu2 ha2
    let cp4 := collectItems rb.1 stars1 STAR_R
    let ch4 := collectItems rb.2 cp4.2 STAR_R
    let tp5 := takePowerups cp4.1 powers1 t.now
    let th5 := takePowerups ch4.1 tp5.2 t.now
    ({ players := { pulkit := tp5.1, harshil := th5.1 },
       stars := ch4.2, obstacles := obstacles1, powers := th5.2,
       lastStarSpawn := lastStar', lastPowerTry := lastPow',
       startedAt := s.startedAt, running := running', winner := winner',
       countdown := remain }, up.2, uh.2)
  else (s, t.cp, t.ch)

/-- Iterated `advance` over a list of per-tick inputs. -/
def advanceSeq (s : GState) : List Tick → GState
  | [] => s
  | t :: ts => advanceSeq (advance s t).1 ts

/-- `startGame` (App.jsx lines 208-231), with the module constant
`ROUND_TIME` exposed as the parameter `roundTime` (the spec treats the
numeric constants as configuration values) and the `OBSTACLE_COUNT` calls
to `Math.random()` supplied as `rnd : Fin OBSTACLE_COUNT → ℚ⁴`. -/
def startGameWith (roundTime : ℤ) (now : ℚ) (rnd : Fin OBSTACLE_COUNT → ℚ × ℚ × ℚ × ℚ) :
    GState :=
  { players :=
      { pulkit := initPlayer (WORLD_W * (25/100)) (WORLD_H * (78/100)),
        harshil := initPlayer (WORLD_W * (75/100)) (WORLD_H * (22/100)) },
    stars := [], powers := [],
    lastStarSpawn := 0, lastPowerTry := 0,
    startedAt := now,
    obstacles := List.ofFn fun i =>
      { x := 60 + (rnd i).1 * (WORLD_W - 120),
        y := 60 + (rnd i).2.1 * (WORLD_H - 120),
        r := OBSTACLE_R,
        vx := ((rnd i).2.2.1 * 2 - 1) * (7/5),
        vy := ((rnd i).2.2.2 * 2 - 1) * (6/5) },
    winner := none,
    countdown := roundTime,
    running := true }

def startGame : ℚ → (Fin OBSTACLE_COUNT → ℚ × ℚ × ℚ × ℚ) → GState :=
  startGameWith ROUND_TIME

/-! ## Preservation and characterisation lemmas for the individual steps -/

theorem updatePlayer_ctrl (p : Player) (c : Ctrl) (now : ℚ) :
    (updatePlayer p c now).2 = c := by
  simp only [updatePlayer, jsOr0_eq]
  have h : ¬ (now < c.dashUntil ∧ c.dashUntil ≤ now) := by
    rintro ⟨h1, h2⟩
    exact absurd (lt_of_lt_of_le h1 h2) (lt_irrefl now)
  simp [h]

theorem updatePlayer_score (p : Player) (c : Ctrl) (now : ℚ) :
    (updatePlayer p c now).1.score = p.score := by
  simp [updatePlayer]

theorem collideObs_score (now : ℚ) (p : Player) (o : Obstacle) :
    (collideObs now p o).score = p.score := by
  simp only [collideObs]
  split <;> simp

theorem collideWorldAndObstacles_score :
    ∀ (obs : List Obstacle) (p : Player) (now : ℚ),
      (collideWorldAndObstacles p obs now).score = p.score := by
  intro obs
  induction obs with
  | nil => intro p now; rfl
  | cons o rest ih =>
      intro p now
      show (collideWorldAndObstacles (collideObs now p o) rest now).score = p.score
      rw [ih, collideObs_score]

theorem resolvePlayersBounce_score (a b : Player) :
    (resolvePlayersBounce a b).1.score = a.score ∧
      (resolvePlayersBounce a b).2.score = b.score := by
  simp only [resolvePlayersBounce]
  split <;> simp

theorem starHit_congr (p' p : Player) (s : Star) (r : ℚ)
    (hx : p'.x = p.x) (hy : p'.y = p.y) : starHit p' s r = starHit p s r := by
  simp [starHit, hx, hy]

theorem collectItems_fields (p : Player) (r : ℚ) : ∀ (st : List Star),
    (collectItems p st r).1.x = p.x ∧ (collectItems p st r).1.y = p.y ∧
    (collectItems p st r).1.vx = p.vx ∧ (collectItems p st r).1.vy = p.vy ∧
    (collectItems p st r).1.boostUntil = p.boostUntil ∧
    (collectItems p st r).1.hitTintUntil = p.hitTintUntil := by
  intro st
  induction st with
  | nil => simp [collectItems]
  | cons s rest ih =>
      simp only [collectItems]
      split <;> simp_all

theorem collectItems_score (p : Player) (r : ℚ) : ∀ (st : List Star),
    (collectItems p st r).1.score = p.score + st.countP (fun s => starHit p s r) := by
  intro st
  induction st with
  | nil => simp [collectItems]
  | cons s rest ih =>
      have hhit : starHit (collectItems p rest r).1 s r = starHit p s r :=
        starHit_congr _ _ _ _ (collectItems_fields p r rest).1 (collectItems_fields p r rest).2.1
      simp only [collectItems, List.countP_cons, hhit]
      split
      all_goals simp_all
      all_goals omega

theorem collectItems_snd (p : Player) (r : ℚ) : ∀ (st : List Star),
    (collectItems p st r).2 = st.filter (fun s => !starHit p s r) := by
  intro st
  induction st with
  | nil => simp [collectItems]
  | cons s rest ih =>
      have hhit : starHit (collectItems p rest r).1 s r = starHit p s r :=
        starHit_congr _ _ _ _ (collectItems_fields p r rest).1 (collectItems_fields p r rest).2.1
      simp only [collectItems, List.filter_cons, hhit]
      by_cases h : starHit p s r = true <;> simp [h, ih]

theorem powHit_congr (p' p : Player) (pw : Power)
    (hx : p'.x = p.x) (hy : p'.y = p.y) : powHit p' pw = powHit p pw := by
  simp [powHit, hx, hy]

theorem takePowerups_fields (p : Player) (now : ℚ) : ∀ (ps : List Power),
    (takePowerups p ps now).1.x = p.x ∧ (takePowerups p ps now).1.y = p.y ∧
    (takePowerups p ps now).1.vx = p.vx ∧ (takePowerups p ps now).1.vy = p.vy ∧
    (takePowerups p ps now).1.score = p.score ∧
    (takePowerups p ps now).1.hitTintUntil = p.hitTintUntil := by
  intro ps
  induction ps with
  | nil => simp [takePowerups]
  | cons pw rest ih =>
      simp only [takePowerups]
      split
      · split <;> simp_all
      · simp_all

theorem takePowerups_boostUntil (p : Player) (now : ℚ) : ∀ (ps : List Power),
    (takePowerups p ps now).1.boostUntil =
      if ps.any (fun pw => powHit p pw && decide (pw.type = ("boost"))) then
        now + BOOST_DURATION
      else p.boostUntil := by
  intro ps
  induction ps with
  | nil => simp [takePowerups]
  | cons pw rest ih =>
      have hhit : powHit (takePowerups p rest now).1 pw = powHit p pw :=
        powHit_congr _ _ _ (takePowerups_fields p now rest).1 (takePowerups_fields p now rest).2.1
      simp only [takePowerups, List.any_cons, hhit]
      by_cases h1 : powHit p pw = true
      · by_cases h2 : pw.type = ("boost") <;> simp [h1, h2, ih]
      · simp [h1, ih]

theorem takePowerups_snd (p : Player) (now : ℚ) : ∀ (ps : List Power),
    (takePowerups p ps now).2 = ps.filter (fun pw => !powHit p pw) := by
  intro ps
  induction ps with
  | nil => simp [takePowerups]
  | cons pw rest ih =>
      have hhit : powHit (takePowerups p rest now).1 pw = powHit p pw :=
        powHit_congr _ _ _ (takePowerups_fields p now rest).1 (takePowerups_fields p now rest).2.1
      simp only [takePowerups, List.filter_cons, hhit]
      by_cases h : powHit p pw = true <;> simp [h, ih]

/-! ## Obstacle bounce invariant

One axis of `stepObstacle` is `x ↦ x + v` followed by negating `v` when the
updated coordinate has crossed the `[lo, hi]` band (`lo = r`,
`hi = dim - r`).  The position itself is never clamped, so right after a
bounce the coordinate sits up to `|v|` outside the band; `axOk` is the
inductive invariant describing exactly those states, and it keeps the
obstacle inside the arena as long as `|v| ≤ lo`. -/

def axOk (lo hi x v : ℚ) : Prop :=
  (lo ≤ x ∧ x ≤ hi) ∨ (x < lo ∧ lo - |v| ≤ x ∧ 0 < v) ∨ (hi < x ∧ x ≤ hi + |v| ∧ v < 0)

theorem axOk_step (lo hi x v : ℚ) (hw : lo + |v| ≤ hi) (h : axOk lo hi x v) :
    axOk lo hi (x + v) (if x + v < lo ∨ hi < x + v then -v else v) := by
  have hnal : -|v| ≤ v := neg_abs_le v
  have hlab : v ≤ |v| := le_abs_self v
  rcases h with ⟨h1, h2⟩ | ⟨h1, h2, h3⟩ | ⟨h1, h2, h3⟩
  · by_cases hlo : x + v < lo
    · rw [if_pos (Or.inl hlo)]
      refine Or.inr (Or.inl ⟨hlo, by rw [abs_neg]; linarith, by nlinarith⟩)
    · by_cases hhi : hi < x + v
      · rw [if_pos (Or.inr hhi)]
        refine Or.inr (Or.inr ⟨hhi, by rw [abs_neg]; linarith, by nlinarith⟩)
      · rw [if_neg (by tauto)]
        exact Or.inl ⟨not_lt.mp hlo, not_lt.mp hhi⟩
  · have hax : |v| = v := abs_of_pos h3
    have hge : lo ≤ x + v := by linarith
    have hle : x + v ≤ hi := by linarith
    rw [if_neg (by push_neg; exact ⟨hge, hle⟩)]
    exact Or.inl ⟨hge, hle⟩
  · have hax : |v| = -v := abs_of_neg h3
    have hge : lo ≤ x + v := by linarith
    have hle : x + v ≤ hi := by linarith
    rw [if_neg (by push_neg; exact ⟨hge, hle⟩)]
    exact Or.inl ⟨hge, hle⟩

theorem axOk_bounds (lo hi x v : ℚ) (hw : lo + |v| ≤ hi)
    (h : axOk lo hi x v) : lo - |v| ≤ x ∧ x ≤ hi + |v| := by
  have := abs_nonneg v
  rcases h with ⟨h1, h2⟩ | ⟨h1, h2, h3⟩ | ⟨h1, h2, h3⟩ <;> constructor <;> linarith

@[simp] theorem stepObstacle_x (o : Obstacle) : (stepObstacle o).x = o.x + o.vx := rfl
@[simp] theorem stepObstacle_y (o : Obstacle) : (stepObstacle o).y = o.y + o.vy := rfl
@[simp] theorem stepObstacle_r (o : Obstacle) : (stepObstacle o).r = o.r := rfl

theorem stepObstacle_vx (o : Obstacle) :
    (stepObstacle o).vx =
      if o.x + o.vx < o.r ∨ WORLD_W - o.r < o.x + o.vx then -o.vx else o.vx := rfl

theorem stepObstacle_vy (o : Obstacle) :
    (stepObstacle o).vy =
      if o.y + o.vy < o.r ∨ WORLD_H - o.r < o.y + o.vy then -o.vy else o.vy := rfl

/-- The inductive invariant of a moving obstacle: each axis is in the
`axOk` band-or-rebounding shape, and speeds are small relative to the
radius and the arena. -/
def obstacleOk (o : Obstacle) : Prop :=
  axOk o.r (WORLD_W - o.r) o.x o.vx ∧ axOk o.r (WORLD_H - o.r) o.y o.vy ∧
    |o.vx| ≤ o.r ∧ |o.vy| ≤ o.r ∧
    o.r + |o.vx| ≤ WORLD_W - o.r ∧ o.r + |o.vy| ≤ WORLD_H - o.r

theorem obstacleOk_step (o : Obstacle) (h : obstacleOk o) : obstacleOk (stepObstacle o) := by
  obtain ⟨hax, hay, hvx, hvy, hwx, hwy⟩ := h
  have habsx : |(stepObstacle o).vx| = |o.vx| := by
    rw [stepObstacle_vx]; split <;> simp [abs_neg]
  have habsy : |(stepObstacle o).vy| = |o.vy| := by
    rw [stepObstacle_vy]; split <;> simp [abs_neg]
  refine ⟨?_, ?_, ?_, ?_, ?_, ?_⟩
  · simpa [stepObstacle_vx] using axOk_step o.r (WORLD_W - o.r) o.x o.vx hwx hax
  · simpa [stepObstacle_vy] using axOk_step o.r (WORLD_H - o.r) o.y o.vy hwy hay
  · rw [habsx, stepObstacle_r]; exact hvx
  · rw [habsy, stepObstacle_r]; exact hvy
  · rw [habsx, stepObstacle_r]; exact hwx
  · rw [habsy, stepObstacle_r]; exact hwy

def obsIterate : ℕ → Obstacle → Obstacle
  | 0, o => o
  | n + 1, o => obsIterate n (stepObstacle o)

theorem obstacleOk_iterate : ∀ (n : ℕ) (o : Obstacle), obstacleOk o → obstacleOk (obsIterate n o)
  | 0, _, h => h
  | n + 1, o, h => obstacleOk_iterate n (stepObstacle o) (obstacleOk_step o h)

theorem obstacleOk_inArena (o : Obstacle) (h : obstacleOk o) :
    0 ≤ o.x ∧ o.x ≤ WORLD_W ∧ 0 ≤ o.y ∧ o.y ≤ WORLD_H := by
  obtain ⟨hax, hay, hvx, hvy, hwx, hwy⟩ := h
  have hbx := axOk_bounds _ _ _ _ hwx hax
  have hby := axOk_bounds _ _ _ _ hwy hay
  have h1 := abs_nonneg o.vx
  have h2 := abs_nonneg o.vy
  exact ⟨by linarith [hbx.1], by linarith [hbx.2], by linarith [hby.1], by linarith [hby.2]⟩

/-! ## Lemmas about one full `advance` -/

theorem collectItems_x (p : Player) (r : ℚ) (st : List Star) :
    (collectItems p st r).1.x = p.x := (collectItems_fields p r st).1

theorem collectItems_y (p : Player) (r : ℚ) (st : List Star) :
    (collectItems p st r).1.y = p.y := (collectItems_fields p r st).2.1

theorem takePowerups_score (p : Player) (now : ℚ) (ps : List Power) :
    (takePowerups p ps now).1.score = p.score := (takePowerups_fields p now ps).2.2.2.2.1

theorem resolvePlayersBounce_score1 (a b : Player) :
    (resolvePlayersBounce a b).1.score = a.score := (resolvePlayersBounce_score a b).1

theorem resolvePlayersBounce_score2 (a b : Player) :
    (resolvePlayersBounce a b).2.score = b.score := (resolvePlayersBounce_score a b).2

theorem advance_not_running (s : GState) (t : Tick) (h : s.running = false) :
    advance s t = (s, t.cp, t.ch) := by
  simp [advance, h]

theorem advanceSeq_not_running (s : GState) (h : s.running = false) :
    ∀ ts : List Tick, advanceSeq s ts = s := by
  intro ts
  induction ts with
  | nil => rfl
  | cons t rest ih => rw [advanceSeq, advance_not_running s t h]; exact ih

theorem advance_obstacles (s : GState) (t : Tick) (h : s.running = true) :
    (advance s t).1.obstacles = s.obstacles.map stepObstacle := by
  simp [advance, h]

theorem advance_winner_expired (s : GState) (t : Tick) (hr : s.running = true)
    (he : remainOf s t.now ≤ 0) :
    (advance s t).1.winner = some (declWinner s.players) ∧ (advance s t).1.running = false := by
  simp [advance, hr, he]

theorem advance_winner_live (s : GState) (t : Tick) (hr : s.running = true)
    (hl : ¬ remainOf s t.now ≤ 0) :
    (advance s t).1.winner = s.winner ∧ (advance s t).1.running = true := by
  simp [advance, hr, hl]

theorem advance_score_mono (s : GState) (t : Tick) :
    s.players.pulkit.score ≤ (advance s t).1.players.pulkit.score ∧
      s.players.harshil.score ≤ (advance s t).1.players.harshil.score := by
  by_cases hr : s.running
  · simp only [advance, if_pos hr]
    constructor
    · simp only [takePowerups_score, collectItems_score, resolvePlayersBounce_score1,
        collideWorldAndObstacles_score, updatePlayer_score]
      exact Nat.le_add_right _ _
    · simp only [takePowerups_score, collectItems_score, resolvePlayersBounce_score2,
        collideWorldAndObstacles_score, updatePlayer_score]
      exact Nat.le_add_right _ _
  · rw [advance_not_running s t (by simpa using hr)]
    exact ⟨le_rfl, le_rfl⟩

theorem advance_powers_le (s : GState) (t : Tick) :
    (advance s t).1.powers.length ≤ max 2 s.powers.length := by
  by_cases hr : s.running
  · simp only [advance, if_pos hr]
    rw [takePowerups_snd, takePowerups_snd]
    refine le_trans (List.length_filter_le _ _) (le_trans (List.length_filter_le _ _) ?_)
    split_ifs with h
    · rcases h with ⟨-, -, hlen⟩
      simp only [List.length_append, List.length_singleton]
      omega
    · exact le_max_right 2 _
  · rw [advance_not_running s t (by simpa using hr)]
    exact le_max_right 2 _

theorem advance_powers_inv (s : GState) (t : Tick) (h : s.powers.length ≤ 2) :
    (advance s t).1.powers.length ≤ 2 :=
  le_trans (advance_powers_le s t) (max_le le_rfl h)

theorem advanceSeq_powers (ts : List Tick) : ∀ (s : GState), s.powers.length ≤ 2 →
    (advanceSeq s ts).powers.length ≤ 2 := by
  induction ts with
  | nil => intro s h; exact h
  | cons t rest ih => intro s h; exact ih _ (advance_powers_inv s t h)

theorem advance_runningNone (s : GState) (t : Tick)
    (h : s.running = true → s.winner = none) :
    (advance s t).1.running = true → (advance s t).1.winner = none := by
  by_cases hr : s.running
  · by_cases he : remainOf s t.now ≤ 0
    · intro hx
      rw [(advance_winner_expired s t hr he).2] at hx
      exact absurd hx (by simp)
    · intro _
      rw [(advance_winner_live s t hr he).1]
      exact h hr
  · rw [advance_not_running s t (by simpa using hr)]
    exact h

theorem advanceSeq_runningNone (ts : List Tick) :
    ∀ (s : GState), (s.running = true → s.winner = none) →
      ((advanceSeq s ts).running = true → (advanceSeq s ts).winner = none) := by
  induction ts with
  | nil => intro s h; exact h
  | cons t rest ih => intro s h; exact ih _ (advance_runningNone s t h)

/-! ## Characterisations of the collision resolutions -/

theorem resolvePlayersBounce_coincident (a b : Player) (hx : b.x = a.x) (hy : b.y = a.y) :
    resolvePlayersBounce a b = (a, b) := by
  simp only [resolvePlayersBounce, hx, hy, sub_self, hypot_zero]
  norm_num

theorem resolvePlayersBounce_pos (a b : Player) (d : ℚ) (hd : 0 < d)
    (hsq : d * d = (b.x - a.x) * (b.x - a.x) + (b.y - a.y) * (b.y - a.y))
    (hlt : d < PLAYER_R * 2) :
    resolvePlayersBounce a b =
      ({ a with x := a.x - (b.x - a.x) / d * ((PLAYER_R * 2 - d + 1/100) / 2),
                y := a.y - (b.y - a.y) / d * ((PLAYER_R * 2 - d + 1/100) / 2),
                vx := a.vx - (b.x - a.x) / d * (4/5),
                vy := a.vy - (b.y - a.y) / d * (4/5) },
       { b with x := b.x + (b.x - a.x) / d * ((PLAYER_R * 2 - d + 1/100) / 2),
                y := b.y + (b.y - a.y) / d * ((PLAYER_R * 2 - d + 1/100) / 2),
                vx := b.vx + (b.x - a.x) / d * (4/5),
                vy := b.vy + (b.y - a.y) / d * (4/5) }) := by
  have hh : hypot (b.x - a.x) (b.y - a.y) = d := hypot_exact _ _ d hd.le hsq
  simp only [resolvePlayersBounce, hh, if_pos (And.intro hlt hd)]

theorem updatePlayer_eq (p : Player) (c : Ctrl) (now : ℚ) :
    (updatePlayer p c now).1 =
      (let speed := if now < c.dashUntil then DASH_BOOST
                    else if now < p.boostUntil then BOOST_SPEED else BASE_SPEED
       let vx := (p.vx + c.vx * speed * (11/20)) * FRICTION
       let vy := (p.vy + c.vy * speed * (11/20)) * FRICTION
       { p with vx := vx, vy := vy,
                x := max (8 + PLAYER_R) (min (WORLD_W - (8 + PLAYER_R)) (p.x + vx)),
                y := max (8 + PLAYER_R) (min (WORLD_H - (8 + PLAYER_R)) (p.y + vy)) }) := by
  simp only [updatePlayer, jsOr0_eq]

theorem clamp_mem (lo hi x : ℚ) (h : lo ≤ hi) :
    lo ≤ max lo (min hi x) ∧ max lo (min hi x) ≤ hi :=
  ⟨le_max_left _ _, max_le h (min_le_left _ _)⟩

theorem updatePlayer_x_mem (p : Player) (c : Ctrl) (now : ℚ) :
    8 + PLAYER_R ≤ (updatePlayer p c now).1.x ∧
      (updatePlayer p c now).1.x ≤ WORLD_W - (8 + PLAYER_R) := by
  simp only [updatePlayer, jsOr0_eq]
  exact clamp_mem _ _ _ (by norm_num [PLAYER_R, WORLD_W])

theorem updatePlayer_y_mem (p : Player) (c : Ctrl) (now : ℚ) :
    8 + PLAYER_R ≤ (updatePlayer p c now).1.y ∧
      (updatePlayer p c now).1.y ≤ WORLD_H - (8 + PLAYER_R) := by
  simp only [updatePlayer, jsOr0_eq]
  exact clamp_mem _ _ _ (by norm_num [PLAYER_R, WORLD_H])

/-! ## Concrete states used by the counterexamples and witnesses -/

/-- A neutral control object (stick centred, no dash requested; `lastDash`
starts at `-Infinity` in the source, any sufficiently negative value plays
that role). -/
def ctrl0 : Ctrl := { vx := 0, vy := 0, dash := false, lastDash := -1000000, dashUntil := 0 }

/-- A running round with both players resting against the left wall clamp
(`x = 24 = 8 + PLAYER_R`) one unit apart vertically aligned, no stars,
obstacles, or power-ups, and the round clock fresh. -/
def exC1S : GState :=
  { players := { pulkit := initPlayer 24 100, harshil := initPlayer 25 100 },
    stars := [], obstacles := [], powers := [],
    lastStarSpawn := 0, lastPowerTry := 0, startedAt := 0,
    running := true, winner := none, countdown := 75 }

def exC1T : Tick :=
  { cp := ctrl0, ch := ctrl0, now := 0, rStar := ⟨480, 270⟩, rollP := false,
    rPow := ⟨("boost"), 480, 270⟩ }

/-! ## Claim theorems -/

/-- C1 counterexample: from a state in which both players satisfy the
claimed bounds (`radius ≤ x ≤ worldWidth - radius`, same for `y`), a single
`advance` call leaves player A at `x = 1699/200 = 8.495 < 16 = radius`:
the player-versus-player separation runs after the clamp of the
integration step and is itself never clamped, so the bounds invariant does
not hold after the full advance. -/
theorem C1_counterexample :
    (PLAYER_R ≤ exC1S.players.pulkit.x ∧ exC1S.players.pulkit.x ≤ WORLD_W - PLAYER_R ∧
     PLAYER_R ≤ exC1S.players.pulkit.y ∧ exC1S.players.pulkit.y ≤ WORLD_H - PLAYER_R ∧
     PLAYER_R ≤ exC1S.players.harshil.x ∧ exC1S.players.harshil.x ≤ WORLD_W - PLAYER_R ∧
     PLAYER_R ≤ exC1S.players.harshil.y ∧ exC1S.players.harshil.y ≤ WORLD_H - PLAYER_R) ∧
    (advance exC1S exC1T).1.players.pulkit.x < PLAYER_R := by
  constructor
  · norm_num [exC1S, initPlayer, PLAYER_R, WORLD_W, WORLD_H]
  · have h : hypot 1 0 = 1 := hypot_exact _ _ 1 (by norm_num) (by norm_num)
    norm_num [advance, exC1S, exC1T, initPlayer, ctrl0, remainOf, updatePlayer, jsOr0_eq,
      collideWorldAndObstacles, resolvePlayersBounce, collectItems, takePowerups,
      h, PLAYER_R, WORLD_W, WORLD_H, BASE_SPEED, FRICTION, ROUND_TIME, STAR_RESPAWN_MS,
      POWER_CHANCE_MS, MAX_STARS, STAR_R, max_def, min_def, Int.floor_zero]

/-- C1 (amended): the hard clamp of the player-integration step keeps each
player inside the even tighter band `[8 + radius, worldDimension - 8 - radius]`
(hence inside `[radius, worldDimension - radius]`) on both axes — but this
holds only immediately after the integration step; the obstacle and
player-versus-player collision resolutions that `advance` runs afterwards
move positions without re-clamping, so the claimed bounds can be violated
after a full `advance` call (see the counterexample). -/
theorem C1_integration_clamp_bounds :
    ∀ (p : Player) (c : Ctrl) (now : ℚ),
      (PLAYER_R ≤ (updatePlayer p c now).1.x ∧
        (updatePlayer p c now).1.x ≤ WORLD_W - PLAYER_R ∧
        PLAYER_R ≤ (updatePlayer p c now).1.y ∧
        (updatePlayer p c now).1.y ≤ WORLD_H - PLAYER_R) ∧
      (8 + PLAYER_R ≤ (updatePlayer p c now).1.x ∧
        (updatePlayer p c now).1.x ≤ WORLD_W - (8 + PLAYER_R) ∧
        8 + PLAYER_R ≤ (updatePlayer p c now).1.y ∧
        (updatePlayer p c now).1.y ≤ WORLD_H - (8 + PLAYER_R)) := by
  intro p c now
  obtain ⟨hx1, hx2⟩ := updatePlayer_x_mem p c now
  obtain ⟨hy1, hy2⟩ := updatePlayer_y_mem p c now
  have hr : (0:ℚ) ≤ 8 := by norm_num
  exact ⟨⟨by linarith, by linarith, by linarith, by linarith⟩, hx1, hx2, hy1, hy2⟩

/-- C2: star scoring.  (i) One `collectItems` pass adds exactly the number
of stars within collision range to the player's score and removes exactly
those stars; (ii) across a full `advance` both players' scores are
non-decreasing; (iii) in the two sequential passes of `advance` (player A
first), player B's pass scores exactly the stars in B's range that were not
already taken by A, and a star is removed at most once; (iv) hence a single
star within range of both players is collected exactly once, by the
first-checked player, and leaves the other player's score unchanged. -/
theorem C2_star_scoring :
    (∀ (p : Player) (r : ℚ) (st : List Star),
      (collectItems p st r).1.score = p.score + st.countP (fun s => starHit p s r) ∧
      (collectItems p st r).2 = st.filter (fun s => !starHit p s r)) ∧
    (∀ (s : GState) (t : Tick),
      s.players.pulkit.score ≤ (advance s t).1.players.pulkit.score ∧
      s.players.harshil.score ≤ (advance s t).1.players.harshil.score) ∧
    (∀ (pu ha : Player) (r : ℚ) (st : List Star),
      (collectItems ha (collectItems pu st r).2 r).1.score =
        ha.score + st.countP (fun s => starHit ha s r && !starHit pu s r) ∧
      (collectItems ha (collectItems pu st r).2 r).2 =
        st.filter (fun s => !starHit ha s r && !starHit pu s r)) ∧
    (∀ (pu ha : Player) (r : ℚ) (s : Star),
      starHit pu s r = true → starHit ha s r = true →
      (collectItems pu [s] r).1.score = pu.score + 1 ∧
      (collectItems ha (collectItems pu [s] r).2 r).1.score = ha.score ∧
      (collectItems ha (collectItems pu [s] r).2 r).2 = []) := by
  refine ⟨?_, advance_score_mono, ?_, ?_⟩
  · intro p r st
    exact ⟨collectItems_score p r st, collectItems_snd p r st⟩
  · intro pu ha r st
    rw [collectItems_snd pu, collectItems_score, collectItems_snd ha, List.countP_filter,
      List.filter_filter]
    exact ⟨rfl, rfl⟩
  · intro pu ha r s h1 h2
    simp [collectItems, h1, h2]

/-- C2 witness: a star at `(100,100)` is in range of player A at `(100,100)`
and of player B at `(101,100)`; the two passes give A one point, leave B's
score unchanged, and empty the star list. -/
theorem C2_witness :
    starHit (initPlayer 100 100) ⟨100, 100⟩ STAR_R = true ∧
    starHit (initPlayer 101 100) ⟨100, 100⟩ STAR_R = true ∧
    ((collectItems (initPlayer 100 100) [⟨100, 100⟩] STAR_R).1.score
        = (initPlayer 100 100).score + 1 ∧
      (collectItems (initPlayer 101 100)
          (collectItems (initPlayer 100 100) [⟨100, 100⟩] STAR_R).2 STAR_R).1.score
        = (initPlayer 101 100).score ∧
      (collectItems (initPlayer 101 100)
          (collectItems (initPlayer 100 100) [⟨100, 100⟩] STAR_R).2 STAR_R).2 = []) := by
  have h1 : starHit (initPlayer 100 100) ⟨100, 100⟩ STAR_R = true := by
    norm_num [starHit, initPlayer, STAR_R, PLAYER_R]
  have h2 : starHit (initPlayer 101 100) ⟨100, 100⟩ STAR_R = true := by
    norm_num [starHit, initPlayer, STAR_R, PLAYER_R]
  exact ⟨h1, h2, C2_star_scoring.2.2.2 _ _ _ _ h1 h2⟩

/-- C3: over a round, `winner` goes from `none` to a terminal value exactly
once.  (i) A non-running state is left completely unchanged by `advance`
(and by any sequence of them), so `winner` never changes after the round
has ended; (ii) when the round is running and the remaining time has
reached 0, `advance` sets `winner` by comparing the scores and stops the
round; (iii) while time remains the round keeps running and `winner` is
untouched; (iv) the comparison is strictly-greater-wins with a draw on
equality; (v) the remaining time reaches 0 exactly when
`now - startedAt ≥ roundDuration` (the source computes it in whole seconds
as `max(0, ROUND_TIME - ⌊(now - startedAt)/1000⌋)`, which has the same zero
crossing); (vi) in any state reachable from `startGame`, `winner` is `none`
while the round is running. -/
theorem C3_winner_single_transition :
    (∀ (s : GState) (t : Tick), s.running = false → advance s t = (s, t.cp, t.ch)) ∧
    (∀ (s : GState) (ts : List Tick), s.running = false → advanceSeq s ts = s) ∧
    (∀ (s : GState) (t : Tick), s.running = true → remainOf s t.now ≤ 0 →
      (advance s t).1.winner = some (declWinner s.players) ∧
        (advance s t).1.running = false) ∧
    (∀ (s : GState) (t : Tick), s.running = true → 0 < remainOf s t.now →
      (advance s t).1.winner = s.winner ∧ (advance s t).1.running = true) ∧
    (∀ ps : Players,
      (ps.harshil.score < ps.pulkit.score → declWinner ps = Winner.pulkit) ∧
      (ps.pulkit.score < ps.harshil.score → declWinner ps = Winner.harshil) ∧
      (ps.pulkit.score = ps.harshil.score → declWinner ps = Winner.draw)) ∧
    (∀ (s : GState) (now : ℚ),
      remainOf s now ≤ 0 ↔ (ROUND_TIME : ℚ) * 1000 ≤ now - s.startedAt) ∧
    (∀ (rt : ℤ) (now : ℚ) (rnd : Fin OBSTACLE_COUNT → ℚ × ℚ × ℚ × ℚ) (ts : List Tick),
      (advanceSeq (startGameWith rt now rnd) ts).running = true →
      (advanceSeq (startGameWith rt now rnd) ts).winner = none) := by
  refine ⟨advance_not_running, fun s ts h => advanceSeq_not_running s h ts,
    advance_winner_expired, ?_, ?_, ?_, ?_⟩
  · intro s t hr hl
    exact advance_winner_live s t hr (not_le.mpr hl)
  · intro ps
    refine ⟨fun h => ?_, fun h => ?_, fun h => ?_⟩
    · rw [declWinner, if_pos h]
    · rw [declWinner, if_neg (by omega), if_pos h]
    · rw [declWinner, if_neg (by omega), if_neg (by omega)]
  · intro s now
    have h1000 : (0:ℚ) < 1000 := by norm_num
    rw [remainOf, max_le_iff]
    constructor
    · rintro ⟨-, h⟩
      have h75 : (ROUND_TIME : ℤ) ≤ Int.floor ((now - s.startedAt) / 1000) := by omega
      have h2 := Int.le_floor.mp h75
      rw [le_div_iff₀ h1000] at h2
      linarith
    · intro h
      refine ⟨le_rfl, ?_⟩
      have h2 : (ROUND_TIME : ℚ) ≤ (now - s.startedAt) / 1000 := by
        rw [le_div_iff₀ h1000]; linarith
      have h3 := Int.le_floor.mpr h2
      omega
  · intro rt now rnd ts
    exact advanceSeq_runningNone ts _ (fun _ => rfl)

/-- A running round whose clock has expired: `startedAt = 0` and the tick
arrives at `now = 80000` ms, beyond the 75-second round. -/
def exC3S : GState :=
  { players := { pulkit := initPlayer 100 100, harshil := initPlayer 500 100 },
    stars := [], obstacles := [], powers := [],
    lastStarSpawn := 0, lastPowerTry := 0, startedAt := 0,
    running := true, winner := none, countdown := 75 }

def exC3T : Tick :=
  { cp := ctrl0, ch := ctrl0, now := 80000, rStar := ⟨480, 270⟩, rollP := false,
    rPow := ⟨("boost"), 480, 270⟩ }

/-- C3 witness: the expired-round clause applied to a concrete expired
round (equal scores, so the declared winner is the draw). -/
theorem C3_witness :
    (advance exC3S exC3T).1.winner = some (declWinner exC3S.players) ∧
      (advance exC3S exC3T).1.running = false := by
  have hrem : remainOf exC3S exC3T.now ≤ 0 := by
    have h : (exC3T.now - exC3S.startedAt) / 1000 = ((80 : ℤ) : ℚ) := by
      norm_num [exC3S, exC3T]
    simp only [remainOf, h, Int.floor_intCast]
    norm_num [ROUND_TIME]
  exact C3_winner_single_transition.2.2.1 exC3S exC3T rfl hrem

/-- A control object whose dash window has already expired
(`dash = true`, `dashUntil = 5`, read at `now = 10`). -/
def exC4ctrl : Ctrl := { vx := 0, vy := 0, dash := true, lastDash := 0, dashUntil := 5 }

/-- C4: the dash write-back never happens.  The source guards the
write-back with `dashActive && now >= ctrl.dashUntil` where
`dashActive = now < ctrl.dashUntil`, a contradiction, so `updatePlayer`
returns the control object completely unchanged for every input — in
particular the concrete control whose window has expired keeps
`dash = true`, contradicting the claimed clearing.  (The same dead guard
appears verbatim in every variant of `updatePlayer` in the repository,
so the clearly intended behaviour — the one the claim describes — is
never executed.) -/
theorem C4_dash_flag_never_cleared :
    (∀ (p : Player) (c : Ctrl) (now : ℚ), (updatePlayer p c now).2 = c) ∧
    exC4ctrl.dashUntil ≤ 10 ∧ exC4ctrl.dash = true ∧
    (updatePlayer (initPlayer 100 100) exC4ctrl 10).2.dash = true := by
  refine ⟨updatePlayer_ctrl, by norm_num [exC4ctrl], by simp [exC4ctrl], ?_⟩
  rw [updatePlayer_ctrl]
  simp [exC4ctrl]

/-- An obstacle resting exactly on the left wall band (`x = r = 18`)
moving left. -/
def exC5O : Obstacle := { x := OBSTACLE_R, y := 100, r := OBSTACLE_R, vx := -7/5, vy := 0 }

def exC5S : GState :=
  { players := { pulkit := initPlayer 500 100, harshil := initPlayer 700 100 },
    stars := [], obstacles := [exC5O], powers := [],
    lastStarSpawn := 0, lastPowerTry := 0, startedAt := 0,
    running := true, winner := none, countdown := 75 }

def exC5T : Tick :=
  { cp := ctrl0, ch := ctrl0, now := 0, rStar := ⟨480, 270⟩, rollP := false,
    rPow := ⟨("boost"), 480, 270⟩ }

/-- C5 counterexample: an obstacle at the left wall boundary (`x = 18 = r`)
moving left with `vx = -1.4`.  One `advance` flips the velocity sign as
claimed, but the obstacle's position is `16.6 < 18 = r`: the source moves
the obstacle before the bounce check and never clamps the position, so the
obstacle does not remain within `[radius, worldWidth - radius]` on that
tick. -/
theorem C5_counterexample :
    (exC5S.obstacles = [exC5O] ∧ exC5O.x = exC5O.r ∧ exC5O.vx < 0) ∧
    (advance exC5S exC5T).1.obstacles =
      [{ x := 83/5, y := 100, r := OBSTACLE_R, vx := 7/5, vy := 0 }] ∧
    (83 : ℚ)/5 < OBSTACLE_R := by
  refine ⟨⟨rfl, rfl, by norm_num [exC5O]⟩, ?_, by norm_num [OBSTACLE_R]⟩
  rw [advance_obstacles exC5S exC5T rfl]
  norm_num [exC5S, exC5O, stepObstacle, OBSTACLE_R, WORLD_W, WORLD_H]

/-- C5 (amended): (i) for an obstacle whose motion step crosses the left
wall band, the x-velocity sign flips and the position lands in
`[r - |vx|, r)` — inside the arena but possibly below `radius`, because the
position is never clamped; (ii) any obstacle that starts inside the wall
band with per-axis speed at most its radius (true of all spawned obstacles:
speeds at most 1.4 against radius 18) stays inside the arena
`[0, worldWidth] × [0, worldHeight]` for every number of ticks; (iii) each
running `advance` moves the obstacles by exactly one such step. -/
theorem C5_obstacle_reflection :
    (∀ o : Obstacle, o.r ≤ o.x → o.x + o.vx < o.r →
      (stepObstacle o).vx = -o.vx ∧ (stepObstacle o).x = o.x + o.vx ∧
        o.r - |o.vx| ≤ (stepObstacle o).x ∧ (stepObstacle o).x < o.r) ∧
    (∀ (n : ℕ) (o : Obstacle),
      o.r ≤ o.x → o.x ≤ WORLD_W - o.r → o.r ≤ o.y → o.y ≤ WORLD_H - o.r →
      |o.vx| ≤ o.r → |o.vy| ≤ o.r →
      o.r + |o.vx| ≤ WORLD_W - o.r → o.r + |o.vy| ≤ WORLD_H - o.r →
      0 ≤ (obsIterate n o).x ∧ (obsIterate n o).x ≤ WORLD_W ∧
        0 ≤ (obsIterate n o).y ∧ (obsIterate n o).y ≤ WORLD_H) ∧
    (∀ (s : GState) (t : Tick), s.running = true →
      (advance s t).1.obstacles = s.obstacles.map stepObstacle) := by
  refine ⟨?_, ?_, advance_obstacles⟩
  · intro o h1 h2
    have hflip : (stepObstacle o).vx = -o.vx := by
      rw [stepObstacle_vx, if_pos (Or.inl h2)]
    have hb : o.r - |o.vx| ≤ o.x + o.vx := by
      have := neg_abs_le o.vx
      linarith
    exact ⟨hflip, rfl, by simpa using hb, by simpa using h2⟩
  · intro n o hx1 hx2 hy1 hy2 hvx hvy hwx hwy
    exact obstacleOk_inArena _ (obstacleOk_iterate n o
      ⟨Or.inl ⟨hx1, hx2⟩, Or.inl ⟨hy1, hy2⟩, hvx, hvy, hwx, hwy⟩)

/-- C5 witness: the reflection clause and the stay-in-arena clause applied
to the concrete left-wall obstacle. -/
theorem C5_witness :
    ((stepObstacle exC5O).vx = -exC5O.vx ∧ (stepObstacle exC5O).x = exC5O.x + exC5O.vx ∧
      exC5O.r - |exC5O.vx| ≤ (stepObstacle exC5O).x ∧ (stepObstacle exC5O).x < exC5O.r) ∧
    (0 ≤ (obsIterate 5 exC5O).x ∧ (obsIterate 5 exC5O).x ≤ WORLD_W ∧
      0 ≤ (obsIterate 5 exC5O).y ∧ (obsIterate 5 exC5O).y ≤ WORLD_H) := by
  have habs : |exC5O.vx| ≤ exC5O.r := by
    norm_num [exC5O, OBSTACLE_R, abs_le]
  have habsy : |exC5O.vy| ≤ exC5O.r := by
    norm_num [exC5O, OBSTACLE_R, abs_le]
  refine ⟨C5_obstacle_reflection.1 exC5O (by norm_num [exC5O]) ?_, ?_⟩
  · norm_num [exC5O, OBSTACLE_R]
  · refine C5_obstacle_reflection.2.1 5 exC5O (by norm_num [exC5O])
      (by norm_num [exC5O, OBSTACLE_R, WORLD_W]) (by norm_num [exC5O, OBSTACLE_R])
      (by norm_num [exC5O, OBSTACLE_R, WORLD_H]) habs habsy ?_ ?_
    · have : |exC5O.vx| = 7/5 := by norm_num [exC5O, abs_le, abs_of_nonpos]
      rw [this]; norm_num [exC5O, OBSTACLE_R, WORLD_W]
    · have : |exC5O.vy| = 0 := by norm_num [exC5O]
      rw [this]; norm_num [exC5O, OBSTACLE_R, WORLD_H]

/-- C6: one player-integration step.  The effective speed is the dash speed
7.0 while `now < dashActiveUntil`, else the boost speed 4.2 while
`now < boostActiveUntil`, else the base speed 2.6 (and these are strictly
ordered); each axis then updates by
`v' = (v + control * speed * 0.55) * 0.88` and the position becomes the old
position plus `v'`, clamped to the arena interior
(`[8 + radius, dimension - 8 - radius]`). -/
theorem C6_effective_speed_and_integration :
    (∀ (p : Player) (c : Ctrl) (now : ℚ),
      (updatePlayer p c now).1 =
        (let speed := if now < c.dashUntil then DASH_BOOST
                      else if now < p.boostUntil then BOOST_SPEED else BASE_SPEED
         let vx := (p.vx + c.vx * speed * (11/20)) * FRICTION
         let vy := (p.vy + c.vy * speed * (11/20)) * FRICTION
         { p with vx := vx, vy := vy,
                  x := max (8 + PLAYER_R) (min (WORLD_W - (8 + PLAYER_R)) (p.x + vx)),
                  y := max (8 + PLAYER_R) (min (WORLD_H - (8 + PLAYER_R)) (p.y + vy)) })) ∧
    DASH_BOOST = 7 ∧ BOOST_SPEED = 21/5 ∧ BASE_SPEED = 13/5 ∧
    BASE_SPEED < BOOST_SPEED ∧ BOOST_SPEED < DASH_BOOST ∧
    (0 : ℚ) < 11/20 ∧ (11/20 : ℚ) < 1 ∧ FRICTION = 22/25 ∧
    0 < FRICTION ∧ FRICTION < 1 :=
  ⟨updatePlayer_eq,
   by norm_num [DASH_BOOST, BOOST_SPEED, BASE_SPEED, FRICTION]⟩

/-- C7 counterexample: players at `(100,100)` and `(130,100)` are at
distance 30 < 32, yet each is displaced by `(32 - 30 + 0.01)/2 = 201/200`
along the normal, not by half the penetration `(32 - 30)/2 = 1`: the source
adds an epsilon of `0.01` to the penetration before halving. -/
theorem C7_counterexample :
    ((30 : ℚ) * 30 =
      ((initPlayer 130 100).x - (initPlayer 100 100).x) *
          ((initPlayer 130 100).x - (initPlayer 100 100).x) +
        ((initPlayer 130 100).y - (initPlayer 100 100).y) *
          ((initPlayer 130 100).y - (initPlayer 100 100).y)) ∧
    (30 : ℚ) < PLAYER_R * 2 ∧
    (resolvePlayersBounce (initPlayer 100 100) (initPlayer 130 100)).1.x
      = (initPlayer 100 100).x - 201/200 ∧
    (201 : ℚ)/200 ≠ (PLAYER_R * 2 - 30)/2 := by
  have h := resolvePlayersBounce_pos (initPlayer 100 100) (initPlayer 130 100) 30
    (by norm_num) (by norm_num [initPlayer]) (by norm_num [PLAYER_R])
  refine ⟨by norm_num [initPlayer], by norm_num [PLAYER_R], ?_, by norm_num [PLAYER_R]⟩
  rw [h]
  norm_num [initPlayer, PLAYER_R]

/-- C7 (amended): player-versus-player resolution.  When the centres
coincide (distance exactly 0) the resolution is skipped entirely and both
players are returned unchanged — the division by the distance is never
reached.  When the distance `d` is strictly positive and below twice the
player radius, the two players are displaced by equal and opposite amounts
along the connecting normal — each by half of the penetration plus the
`0.01` epsilon, `(2·radius - d + 0.01)/2` — and receive equal-and-opposite
velocity impulses of magnitude 0.8 along that normal. -/
theorem C7_player_collision :
    (∀ (a b : Player), b.x = a.x → b.y = a.y → resolvePlayersBounce a b = (a, b)) ∧
    (∀ (a b : Player) (d : ℚ), 0 < d →
      d * d = (b.x - a.x) * (b.x - a.x) + (b.y - a.y) * (b.y - a.y) →
      d < PLAYER_R * 2 →
      (resolvePlayersBounce a b).1.x - a.x
          = -((b.x - a.x) / d * ((PLAYER_R * 2 - d + 1/100) / 2)) ∧
      (resolvePlayersBounce a b).2.x - b.x
          = (b.x - a.x) / d * ((PLAYER_R * 2 - d + 1/100) / 2) ∧
      (resolvePlayersBounce a b).1.y - a.y
          = -((b.y - a.y) / d * ((PLAYER_R * 2 - d + 1/100) / 2)) ∧
      (resolvePlayersBounce a b).2.y - b.y
          = (b.y - a.y) / d * ((PLAYER_R * 2 - d + 1/100) / 2) ∧
      (resolvePlayersBounce a b).1.vx - a.vx = -((b.x - a.x) / d * (4/5)) ∧
      (resolvePlayersBounce a b).2.vx - b.vx = (b.x - a.x) / d * (4/5) ∧
      (resolvePlayersBounce a b).1.vy - a.vy = -((b.y - a.y) / d * (4/5)) ∧
      (resolvePlayersBounce a b).2.vy - b.vy = (b.y - a.y) / d * (4/5)) := by
  refine ⟨resolvePlayersBounce_coincident, ?_⟩
  intro a b d hd hsq hlt
  rw [resolvePlayersBounce_pos a b d hd hsq hlt]
  refine ⟨?_, ?_, ?_, ?_, ?_, ?_, ?_, ?_⟩ <;> (simp only []; ring)

/-- C7 witness: the positive-distance clause applied to players at
`(100,100)` and `(124,118)` (a 24-18-30 right triangle, exact distance 30). -/
theorem C7_witness :
    (resolvePlayersBounce (initPlayer 100 100) (initPlayer 124 118)).1.x
        - (initPlayer 100 100).x
      = -(((initPlayer 124 118).x - (initPlayer 100 100).x) / 30 *
          ((PLAYER_R * 2 - 30 + 1/100) / 2)) ∧
    (resolvePlayersBounce (initPlayer 100 100) (initPlayer 124 118)).2.x
        - (initPlayer 124 118).x
      = ((initPlayer 124 118).x - (initPlayer 100 100).x) / 30 *
          ((PLAYER_R * 2 - 30 + 1/100) / 2) := by
  have h := C7_player_collision.2 (initPlayer 100 100) (initPlayer 124 118) 30
    (by norm_num) (by norm_num [initPlayer]) (by norm_num [PLAYER_R])
  exact ⟨h.1, h.2.1⟩

/-- C8: the concurrent power-up count is capped at 2.  A single `advance`
never pushes the count above `max 2 (current count)` — the spawn step
appends only when the count is strictly below 2 — and along any run that
starts with `startGame` (which clears the collection) the count stays at
most 2 after every tick. -/
theorem C8_power_cap :
    (∀ (s : GState) (t : Tick), (advance s t).1.powers.length ≤ max 2 s.powers.length) ∧
    (∀ (rt : ℤ) (now : ℚ) (rnd : Fin OBSTACLE_COUNT → ℚ × ℚ × ℚ × ℚ) (ts : List Tick),
      (advanceSeq (startGameWith rt now rnd) ts).powers.length ≤ 2) :=
  ⟨advance_powers_le,
   fun _ _ _ ts => advanceSeq_powers ts _ (by simp [startGameWith])⟩

/-- C9 counterexample: called with an invalid configuration value
(`roundTime = -1 ≤ 0`), `startGame` does not fail — its result type has no
error case at all — and instead returns the usual fresh running world.
This refutes the claimed fail-fast `InvalidConfiguration` behaviour: the
source performs no validation whatsoever. -/
theorem C9_counterexample :
    ((-1 : ℤ) ≤ 0) ∧
    (startGameWith (-1) 0 (fun _ => (0, 0, 0, 0))).running = true ∧
    (startGameWith (-1) 0 (fun _ => (0, 0, 0, 0))).winner = none ∧
    (startGameWith (-1) 0 (fun _ => (0, 0, 0, 0))).players.pulkit.score = 0 ∧
    (startGameWith (-1) 0 (fun _ => (0, 0, 0, 0))).stars = [] ∧
    (startGameWith (-1) 0 (fun _ => (0, 0, 0, 0))).obstacles.length = OBSTACLE_COUNT := by
  refine ⟨by norm_num, rfl, rfl, rfl, rfl, ?_⟩
  simp [startGameWith, OBSTACLE_COUNT]

/-- C9 (amended): `startGame` performs no configuration validation and can
never fail: for every value of the round-duration constant — valid or not —
it succeeds and produces a fresh world: both players at their spawn points
with zero velocity and zero score and no active boost, no stars, no
power-ups, `OBSTACLE_COUNT` regenerated obstacles, `winner` unset, the
round running, and the clock started at `now`. -/
theorem C9_start_round_total :
    ∀ (rt : ℤ) (now : ℚ) (rnd : Fin OBSTACLE_COUNT → ℚ × ℚ × ℚ × ℚ),
      (startGameWith rt now rnd).winner = none ∧
      (startGameWith rt now rnd).running = true ∧
      (startGameWith rt now rnd).stars = [] ∧
      (startGameWith rt now rnd).powers = [] ∧
      (startGameWith rt now rnd).players.pulkit
        = initPlayer (WORLD_W * (25/100)) (WORLD_H * (78/100)) ∧
      (startGameWith rt now rnd).players.harshil
        = initPlayer (WORLD_W * (75/100)) (WORLD_H * (22/100)) ∧
      (startGameWith rt now rnd).players.pulkit.vx = 0 ∧
      (startGameWith rt now rnd).players.pulkit.vy = 0 ∧
      (startGameWith rt now rnd).players.pulkit.score = 0 ∧
      (startGameWith rt now rnd).players.pulkit.boostUntil = 0 ∧
      (startGameWith rt now rnd).players.harshil.vx = 0 ∧
      (startGameWith rt now rnd).players.harshil.vy = 0 ∧
      (startGameWith rt now rnd).players.harshil.score = 0 ∧
      (startGameWith rt now rnd).players.harshil.boostUntil = 0 ∧
      (startGameWith rt now rnd).obstacles.length = OBSTACLE_COUNT ∧
      (startGameWith rt now rnd).startedAt = now ∧
      (startGameWith rt now rnd).countdown = rt := by
  intro rt now rnd
  refine ⟨rfl, rfl, rfl, rfl, rfl, rfl, rfl, rfl, rfl, rfl, rfl, rfl, rfl, rfl, ?_, rfl, rfl⟩
  simp [startGameWith, OBSTACLE_COUNT]

/-- C10: power-up resolution.  Every power-up within collision range of the
player is removed from the collection regardless of its type tag; the
player's `boostUntil` is set to `now + BOOST_DURATION` exactly when some
removed power-up has type `boost` (and is left unchanged otherwise, e.g.
when only power-ups of other types were consumed); and no other player
field is ever modified by `takePowerups`. -/
theorem C10_powerup_typing :
    ∀ (p : Player) (ps : List Power) (now : ℚ),
      (takePowerups p ps now).2 = ps.filter (fun pw => !powHit p pw) ∧
      (takePowerups p ps now).1.boostUntil =
        (if ps.any (fun pw => powHit p pw && decide (pw.type = ("boost"))) then
          now + BOOST_DURATION
         else p.boostUntil) ∧
      (takePowerups p ps now).1.x = p.x ∧ (takePowerups p ps now).1.y = p.y ∧
      (takePowerups p ps now).1.vx = p.vx ∧ (takePowerups p ps now).1.vy = p.vy ∧
      (takePowerups p ps now).1.score = p.score ∧
      (takePowerups p ps now).1.hitTintUntil = p.hitTintUntil :=
  fun p ps now =>
    ⟨takePowerups_snd p now ps, takePowerups_boostUntil p now ps,
     (takePowerups_fields p now ps).1, (takePowerups_fields p now ps).2.1,
     (takePowerups_fields p now ps).2.2.1, (takePowerups_fields p now ps).2.2.2.1,
     (takePowerups_fields p now ps).2.2.2.2.1, (takePowerups_fields p now ps).2.2.2.2.2⟩

end Game
